import Mathlib

/-!
Shallow embedding of the two pyRevit command scripts of this repository:

* `FirstButton.pushbutton/script.py` — "Rename Views": rename each selected
  view to `prefix + oldName.replace(find, replace) + suffix`, retrying with a
  `'*'` sentinel appended on every naming collision, up to 20 attempts.
* `InsertRebar.pushbutton/script.py` — "Manual Rebar Placement (SNI)": filter
  the selection to rebar hosts, parse vertical/horizontal bar counts, and
  place evenly spaced rebar lines inset by the fixed `SNI_COVER` from each
  element's bounding box.

The host document is abstracted: whether an assignment `view.Name = n`
succeeds is an oracle `ok : String → Bool`, and an arbitrary host exception
during rebar creation for one element is an oracle `raises : Bool`.
Floating-point document units are embedded as exact rationals.
-/

namespace LearnRevit

/-! ### Python string primitives used by the scripts -/

/-- One step list of `str.replace`: replace every non-overlapping occurrence
of `find` in the remaining input, scanning left to right.  The `fuel`
argument only drives structural recursion; `fuel = s.length` is always
enough because each step consumes at least one character when `find` is
nonempty (the empty-`find` case is handled separately in `pyReplace`). -/
def pyReplaceAux (find repl : List Char) : Nat → List Char → List Char
  | _, [] => []
  | 0, s => s
  | fuel + 1, c :: rest =>
    if find = (c :: rest).take find.length then
      repl ++ pyReplaceAux find repl fuel (rest.drop (find.length - 1))
    else
      c :: pyReplaceAux find repl fuel rest

/-- Python `str.replace(find, repl)`: all non-overlapping occurrences are
replaced, left to right; an empty `find` inserts `repl` before every
character and once at the end (CPython/IronPython semantics). -/
def pyReplace (s find repl : String) : String :=
  if find.data = [] then
    String.mk (repl.data ++ (s.data.map (fun c => c :: repl.data)).flatten)
  else
    String.mk (pyReplaceAux find.data repl.data s.data.length s.data)

/-- Python `str.strip()`: drop leading and trailing whitespace. -/
def pyStrip (s : String) : String :=
  String.mk (((s.data.dropWhile Char.isWhitespace).reverse.dropWhile
      Char.isWhitespace).reverse)

/-- Worker for `pySplit`: `acc` holds the characters of the current token in
reverse order. -/
def pySplitAux : List Char → List Char → List String
  | [], acc => if acc = [] then [] else [String.mk acc.reverse]
  | c :: rest, acc =>
    if Char.isWhitespace c then
      if acc = [] then pySplitAux rest []
      else String.mk acc.reverse :: pySplitAux rest []
    else
      pySplitAux rest (c :: acc)

/-- Python `str.split()` with no argument: split on runs of whitespace and
drop empty tokens. -/
def pySplit (s : String) : List String :=
  pySplitAux s.data []

/-- Value of a nonempty all-digit character list, for `pyInt`. -/
def digitsVal (l : List Char) : Option Nat :=
  if l = [] ∨ ¬ l.all Char.isDigit then none
  else some (l.foldl (fun n c => 10 * n + (c.toNat - Char.toNat '0')) 0)

/-- Python `int(s)` on a whitespace-free token: optional sign followed by a
nonempty digit string; anything else raises `ValueError`, embedded as
`none`. -/
def pyInt (s : String) : Option Int :=
  match s.data with
  | '-' :: rest => (digitsVal rest).map (fun n => -(n : Int))
  | '+' :: rest => (digitsVal rest).map (fun n => (n : Int))
  | l => (digitsVal l).map (fun n => (n : Int))

/-! ### Rename Views script -/

/-- The four user-supplied renaming-rule strings (`prefix`, `find`,
`replace`, `suffix` in the script; `prefix`/`suffix` are shortened here to
`pre`/`suf`). -/
structure RenameRule where
  pre : String
  find : String
  repl : String
  suf : String

/-- The candidate name computed per view:
`new_name = prefix + old_name.replace(find, replace) + suffix`. -/
def candidateName (r : RenameRule) (oldName : String) : String :=
  r.pre ++ pyReplace oldName r.find r.repl ++ r.suf

/-- The `for i in range(20)` retry loop: try to assign the current
`new_name`; on success stop with that name, on a host rejection append one
`'*'` sentinel and retry.  `ok` is the host oracle for whether the
assignment succeeds; `none` means every attempt failed and the loop fell
through without assigning. -/
def renameAttempts (ok : String → Bool) : Nat → String → Option String
  | 0, _ => none
  | n + 1, name =>
    if ok name then some name else renameAttempts ok n (name ++ "*")

/-- Processing of one view in the main loop: compute the candidate name and
run the 20-attempt retry loop; if every attempt fails the view keeps its
original name. -/
def renameOne (ok : String → Bool) (r : RenameRule) (oldName : String) : String :=
  match renameAttempts ok 20 (candidateName r oldName) with
  | some newName => newName
  | none => oldName

/-- The main loop over the selected views; `ok v n` tells whether the host
accepts assigning name `n` to the view currently named `v`. -/
def renameAll (ok : String → String → Bool) (r : RenameRule)
    (views : List String) : List String :=
  views.map (fun v => renameOne (ok v) r v)

/-- View-selection phase: use the current selection, falling back to the
interactive picker when it is empty; if both are empty the script aborts
(`forms.alert(..., exitscript=True)`), embedded as `none`. -/
def selectViews (selected picked : List String) : Option (List String) :=
  let sel := if selected.isEmpty then picked else selected
  if sel.isEmpty then none else some sel

/-- The whole Rename Views command: selection phase, then transactional
rename of every selected view.  `none` means the command aborted before the
transaction was started, with no document mutation. -/
def runRenameCommand (selected picked : List String) (r : RenameRule)
    (ok : String → String → Bool) : Option (List String) :=
  match selectViews selected picked with
  | none => none
  | some views => some (renameAll ok r views)

/-- Number of transactions the rename command starts: zero when it aborts
during selection, one otherwise (`t = Transaction(doc, ...)` is started
exactly once after selection succeeds). -/
def renameTransactions : Option (List String) → Nat
  | none => 0
  | some _ => 1

/-- The sentinel string appended by `k` failed attempts: `k` copies of
`'*'`. -/
def starsStr (k : Nat) : String :=
  String.mk (List.replicate k '*')

/-! ### Manual Rebar Placement script -/

/-- SNI cover distance, fixed in the script: `SNI_COVER = 0.040` (40 mm in
document length units, embedded exactly as a rational). -/
def SNI_COVER : ℚ := 0.040

/-- A 3D point/vector in document coordinates (the host `XYZ`). -/
structure XYZ where
  X : ℚ
  Y : ℚ
  Z : ℚ
deriving DecidableEq

/-- The host basis vector `XYZ.BasisX`. -/
def XYZ.BasisX : XYZ := ⟨1, 0, 0⟩

/-- The host basis vector `XYZ.BasisZ`. -/
def XYZ.BasisZ : XYZ := ⟨0, 0, 1⟩

/-- An element's axis-aligned bounding box (`element.get_BoundingBox(None)`). -/
structure BoundingBox where
  Min : XYZ
  Max : XYZ
deriving DecidableEq

/-- A bounded line segment (`Line.CreateBound(p0, p1)`). -/
structure Line where
  p0 : XYZ
  p1 : XYZ
deriving DecidableEq

/-- The host constructor `Line.CreateBound`. -/
def Line.CreateBound (a b : XYZ) : Line := ⟨a, b⟩

/-- One `Rebar.CreateFromCurves` call issued by the script, recorded as the
norm direction vector passed to the host and the single curve of the bar. -/
structure RebarCall where
  normal : XYZ
  curve : Line
deriving DecidableEq

/-- The host wall kinds compared against `WallKind.Basic` in the filter. -/
inductive WallKind where
  | Basic
  | Curtain
  | Stacked
deriving DecidableEq

/-- A resolved selected element, as far as the script inspects it: a family
instance (carrying whether it is a structural one — the script never reads
this flag), a wall with its kind, a floor, or any other element class. -/
inductive Element where
  | familyInstance (structural : Bool)
  | wall (kind : WallKind)
  | floor
  | other
deriving DecidableEq

/-- The filter body of `get_valid_elements`:
`isinstance(element, (FamilyInstance, Wall, Floor))`, with walls (the only
class carrying a `WallType`) kept only when `WallType.Kind == WallKind.Basic`. -/
def canHostRebar (e : Element) : Bool :=
  match e with
  | .familyInstance _ => true
  | .wall kind => decide (kind = WallKind.Basic)
  | .floor => true
  | .other => false

/-- `get_valid_elements()`: resolve each selected id (skipping ids that
resolve to nothing), keep the elements passing the filter, and abort with an
alert (`none`) when nothing survives. -/
def get_valid_elements (selection : List (Option Element)) : Option (List Element) :=
  let valid := (selection.filterMap id).filter canHostRebar
  if valid.isEmpty then none else some valid

/-- Modelled from the spec: the claimed "can host rebar" predicate of §4.2
step 1, which keeps only *structural* family instances (besides basic walls
and floors).  Stated separately from `canHostRebar` — which is translated
from the source and ignores the structural flag — so the two filters can be
compared. -/
def specCanHostRebar (e : Element) : Bool :=
  match e with
  | .familyInstance structural => structural
  | .wall kind => decide (kind = WallKind.Basic)
  | .floor => true
  | .other => false

/-- The two outcomes of `get_rebar_counts` aborting
(`forms.alert(..., exitscript=True)`): empty input, or a parse failure
caught by the bare `except` ("Invalid input! Use format '3' or '3 5'"). -/
inductive CountError where
  | noInput
  | badFormat
deriving DecidableEq

/-- `get_rebar_counts()` applied to the text the user entered:
`parts = input.strip().split()`, `vertical = int(parts[0])`,
`horizontal = int(parts[1]) if len(parts) > 1 else vertical`, both counts
floored at 1; any exception (no token, non-integer token) aborts with the
format error. -/
def get_rebar_counts (input : String) : Except CountError (Nat × Nat) :=
  if input = "" then .error .noInput
  else
    match pySplit (pyStrip input) with
    | [] => .error .badFormat
    | [p] =>
      match pyInt p with
      | some v => .ok ((max 1 v).toNat, (max 1 v).toNat)
      | none => .error .badFormat
    | p :: q :: _ =>
      match pyInt p, pyInt q with
      | some v, some h => .ok ((max 1 v).toNat, (max 1 h).toNat)
      | _, _ => .error .badFormat

/-- Vertical spacing:
`(width - 2 * SNI_COVER) / max(1, (vertical - 1)) if vertical > 1 else 0`
with `width = bbox.Max.X - bbox.Min.X`. -/
def v_spacing (b : BoundingBox) (vertical : Nat) : ℚ :=
  if 1 < vertical then
    (b.Max.X - b.Min.X - 2 * SNI_COVER) / ((max 1 (vertical - 1) : Nat) : ℚ)
  else 0

/-- Horizontal spacing:
`(height - 2 * SNI_COVER) / max(1, (horizontal - 1)) if horizontal > 1 else 0`
with `height = bbox.Max.Z - bbox.Min.Z`. -/
def h_spacing (b : BoundingBox) (horizontal : Nat) : ℚ :=
  if 1 < horizontal then
    (b.Max.Z - b.Min.Z - 2 * SNI_COVER) / ((max 1 (horizontal - 1) : Nat) : ℚ)
  else 0

/-- The `for i in range(vertical)` loop: bar `i` at
`x = bbox.Min.X + SNI_COVER + i * v_spacing`, running along Z from
`Min.Z + SNI_COVER` to `Max.Z - SNI_COVER` at `y = Min.Y + SNI_COVER`, with
norm direction `XYZ.BasisX`. -/
def verticalRebarCalls (b : BoundingBox) (vertical : Nat) : List RebarCall :=
  (List.range vertical).map (fun (i : Nat) =>
    { normal := XYZ.BasisX,
      curve := Line.CreateBound
        ⟨b.Min.X + SNI_COVER + (i : ℚ) * v_spacing b vertical,
         b.Min.Y + SNI_COVER, b.Min.Z + SNI_COVER⟩
        ⟨b.Min.X + SNI_COVER + (i : ℚ) * v_spacing b vertical,
         b.Min.Y + SNI_COVER, b.Max.Z - SNI_COVER⟩ })

/-- The `for i in range(horizontal)` loop: bar `i` at
`z = bbox.Min.Z + SNI_COVER + i * h_spacing`, running along X from
`Min.X + SNI_COVER` to `Max.X - SNI_COVER` at `y = Min.Y + SNI_COVER`, with
norm direction `XYZ.BasisZ`. -/
def horizontalRebarCalls (b : BoundingBox) (horizontal : Nat) : List RebarCall :=
  (List.range horizontal).map (fun (i : Nat) =>
    { normal := XYZ.BasisZ,
      curve := Line.CreateBound
        ⟨b.Min.X + SNI_COVER, b.Min.Y + SNI_COVER,
         b.Min.Z + SNI_COVER + (i : ℚ) * h_spacing b horizontal⟩
        ⟨b.Max.X - SNI_COVER, b.Min.Y + SNI_COVER,
         b.Min.Z + SNI_COVER + (i : ℚ) * h_spacing b horizontal⟩ })

/-- `place_rebars(element, rebar_type, vertical, horizontal)`.  `bbox` is
what `element.get_BoundingBox(None)` returns; `raises` is the host oracle
for an arbitrary exception thrown while creating this element's rebars.
The whole body runs under `try/except` and the creation loops run inside
`with Transaction(...)`, so an element with no bounding box is skipped
before the transaction (zero calls, `False`) and an exception rolls the
per-element transaction back (zero committed calls, `False`).  On success
the committed calls are the vertical loop's followed by the horizontal
loop's, and the function returns `True`. -/
def place_rebars (bbox : Option BoundingBox) (raises : Bool)
    (vertical horizontal : Nat) : List RebarCall × Bool :=
  match bbox with
  | none => ([], false)
  | some b =>
    if raises then ([], false)
    else (verticalRebarCalls b vertical ++ horizontalRebarCalls b horizontal, true)

/-- The main placement loop: run `place_rebars` on every filtered element
(each element given by its bounding box and its exception oracle), counting
the successes; the pair returned is `(success_count, per-element results)`,
and the final summary alert reports `success_count` out of
`len(elements)`. -/
def run_placement (elems : List (Option BoundingBox × Bool))
    (vertical horizontal : Nat) : Nat × List (List RebarCall × Bool) :=
  let results := elems.map (fun e => place_rebars e.1 e.2 vertical horizontal)
  ((results.filter (fun r => r.2)).length, results)

/-- The Manual Rebar Placement command from the count prompt on: parse the
count string with `get_rebar_counts`; on a parse abort nothing further runs,
otherwise the placement loop runs over the filtered elements.  The `.ok`
payload is `(vertical, horizontal, run_placement ...)`. -/
def runRebarCommand (elems : List (Option BoundingBox × Bool)) (input : String) :
    Except CountError (Nat × Nat × Nat × List (List RebarCall × Bool)) :=
  match get_rebar_counts input with
  | .error e => .error e
  | .ok (v, h) => .ok (v, h, (run_placement elems v h).1, (run_placement elems v h).2)

/-- Number of per-element mutation scopes (`with Transaction(...)`) opened
during a run: zero when the command aborts before the placement loop, and
otherwise one per element that has a bounding box — the transaction is
opened only after the bounding-box check succeeds. -/
def scopesOpened (elems : List (Option BoundingBox × Bool)) :
    Except CountError (Nat × Nat × Nat × List (List RebarCall × Bool)) → Nat
  | .error _ => 0
  | .ok _ => (elems.filter (fun e => e.1.isSome)).length

/-! ### Helper lemmas about the retry loop -/

theorem append_starsStr_zero (s : String) : s ++ starsStr 0 = s := by
  cases s with
  | mk data =>
    show String.mk (data ++ []) = String.mk data
    rw [List.append_nil]

theorem starsStr_shift (s : String) (j : Nat) :
    (s ++ "*") ++ starsStr j = s ++ starsStr (j + 1) := by
  cases s with
  | mk data =>
    show String.mk ((data ++ [Char.ofNat 42]) ++ List.replicate j (Char.ofNat 42))
        = String.mk (data ++ List.replicate (j + 1) (Char.ofNat 42))
    rw [List.append_assoc, List.replicate_succ]
    rfl

/-- If the first `k` attempts collide and attempt `k` (zero-based) is
accepted, the retry loop stops there and returns the candidate with `k`
sentinel characters appended. -/
theorem renameAttempts_first_success (k : Nat) :
    ∀ (n : Nat) (ok : String → Bool) (name : String), k < n →
    (∀ j, j < k → ok (name ++ starsStr j) = false) →
    ok (name ++ starsStr k) = true →
    renameAttempts ok n name = some (name ++ starsStr k) := by
  induction k with
  | zero =>
    intro n ok name hk hfail hsucc
    obtain ⟨m, rfl⟩ : ∃ m, n = m + 1 := ⟨n - 1, by omega⟩
    rw [append_starsStr_zero] at hsucc ⊢
    simp [renameAttempts, hsucc]
  | succ k ih =>
    intro n ok name hk hfail hsucc
    obtain ⟨m, rfl⟩ : ∃ m, n = m + 1 := ⟨n - 1, by omega⟩
    have h0 : ok name = false := by
      have h := hfail 0 (by omega)
      rwa [append_starsStr_zero] at h
    rw [← starsStr_shift] at hsucc ⊢
    simp only [renameAttempts, h0, Bool.false_eq_true, if_false]
    exact ih m ok (name ++ "*") (by omega)
      (fun j hj => by
        have h := hfail (j + 1) (by omega)
        rwa [← starsStr_shift] at h)
      hsucc

/-- If every attempt collides, the retry loop falls through without ever
assigning a name. -/
theorem renameAttempts_exhaust :
    ∀ (n : Nat) (ok : String → Bool) (name : String),
    (∀ j, j < n → ok (name ++ starsStr j) = false) →
    renameAttempts ok n name = none := by
  intro n
  induction n with
  | zero => intro ok name _; rfl
  | succ m ih =>
    intro ok name h
    have h0 : ok name = false := by
      have h0 := h 0 (by omega)
      rwa [append_starsStr_zero] at h0
    simp only [renameAttempts, h0, Bool.false_eq_true, if_false]
    exact ih ok (name ++ "*") (fun j hj => by
      have hj1 := h (j + 1) (by omega)
      rwa [← starsStr_shift] at hj1)

/-! ### Claims about the Rename Views script -/

/-- C1: for every view in the selection and every rename rule, when the
computed candidate name is accepted by the host (no collision with an
existing sibling name), the view's name after the procedure is exactly
`prefix + oldName.replace(find, replace) + suffix`; in particular the rule
`prefix="L-", find="FloorPlan", replace="Level", suffix=""` applied to a
view named `"FloorPlan 1"` yields `"L-Level 1"`. -/
theorem claim_C1 :
    (∀ (ok : String → String → Bool) (r : RenameRule) (views : List String)
        (i : Nat) (v : String), views[i]? = some v →
        ok v (r.pre ++ pyReplace v r.find r.repl ++ r.suf) = true →
        (renameAll ok r views)[i]?
          = some (r.pre ++ pyReplace v r.find r.repl ++ r.suf)) ∧
    renameAll (fun _ _ => true) ⟨"L-", "FloorPlan", "Level", ""⟩ ["FloorPlan 1"]
      = ["L-Level 1"] := by
  constructor
  · intro ok r views i v hv hok
    have hok2 : ok v (candidateName r v) = true := by
      simpa [candidateName] using hok
    have h := renameAttempts_first_success 0 20 (ok v) (candidateName r v)
      (by omega) (fun j hj => by omega)
      (by rwa [append_starsStr_zero])
    rw [append_starsStr_zero] at h
    have hone : renameOne (ok v) r v = candidateName r v := by
      simp [renameOne, h]
    rw [renameAll, List.getElem?_map, hv, Option.map_some', hone, candidateName]
  · rfl

theorem claim_C1_witness :
    (renameAll (fun _ _ => true) ⟨"A-", "x", "y", "-B"⟩ ["x1"])[0]?
      = some ("A-" ++ pyReplace "x1" "x" "y" ++ "-B") :=
  claim_C1.1 (fun _ _ => true) ⟨"A-", "x", "y", "-B"⟩ ["x1"] 0 "x1" rfl rfl

/-- C3: for a view whose candidate name collides, the retry loop appends
exactly one `'*'` sentinel per failed attempt, in order, stopping at the
first accepted attempt — the name assigned (and reported) is the candidate
of that first successful attempt — or after 20 attempts in total, in which
case no name is assigned. -/
theorem claim_C3 : ∀ (ok : String → Bool) (r : RenameRule) (old : String),
    (∀ k, k < 20 →
      (∀ j, j < k → ok (candidateName r old ++ starsStr j) = false) →
      ok (candidateName r old ++ starsStr k) = true →
      renameOne ok r old = candidateName r old ++ starsStr k) ∧
    ((∀ j, j < 20 → ok (candidateName r old ++ starsStr j) = false) →
      renameAttempts ok 20 (candidateName r old) = none) := by
  intro ok r old
  constructor
  · intro k hk hfail hsucc
    have h := renameAttempts_first_success k 20 ok (candidateName r old) hk hfail hsucc
    simp [renameOne, h]
  · intro hfail
    exact renameAttempts_exhaust 20 ok (candidateName r old) hfail

theorem claim_C3_witness :
    renameOne (fun s => s == candidateName ⟨"", "", "", ""⟩ "n" ++ starsStr 2)
        ⟨"", "", "", ""⟩ "n"
      = candidateName ⟨"", "", "", ""⟩ "n" ++ starsStr 2 :=
  (claim_C3 (fun s => s == candidateName ⟨"", "", "", ""⟩ "n" ++ starsStr 2)
      ⟨"", "", "", ""⟩ "n").1 2 (by omega)
    (fun j hj => by interval_cases j <;> rfl) (by rfl)

/-- C7: for a view whose 20 rename attempts all fail, the retry loop exits
without raising and without informing the user: the view is left under its
original name and the main loop continues with the remaining views. -/
theorem claim_C7 : ∀ (ok : String → String → Bool) (r : RenameRule)
    (v : String) (rest : List String),
    (∀ j, j < 20 → ok v (candidateName r v ++ starsStr j) = false) →
    renameOne (ok v) r v = v ∧
    renameAll ok r (v :: rest) = v :: renameAll ok r rest := by
  intro ok r v rest hfail
  have h := renameAttempts_exhaust 20 (ok v) (candidateName r v) hfail
  refine ⟨?_, ?_⟩
  · simp [renameOne, h]
  · simp [renameAll, renameOne, h]

theorem claim_C7_witness :
    renameOne ((fun _ _ => false) "A") ⟨"", "", "", ""⟩ "A" = "A" ∧
    renameAll (fun _ _ => false) ⟨"", "", "", ""⟩ ["A", "B"]
      = "A" :: renameAll (fun _ _ => false) ⟨"", "", "", ""⟩ ["B"] :=
  claim_C7 (fun _ _ => false) ⟨"", "", "", ""⟩ "A" ["B"] (fun _ _ => rfl)

/-- C8: if no views are selected and the interactive view-picker fallback
also returns an empty set, the rename command aborts with a user-facing
message and no document mutation occurs: no transaction is started and no
view name changes. -/
theorem claim_C8 : ∀ (r : RenameRule) (ok : String → String → Bool),
    runRenameCommand [] [] r ok = none ∧
    renameTransactions (runRenameCommand [] [] r ok) = 0 := by
  intro r ok
  exact ⟨rfl, rfl⟩

/-! ### Helper lemmas about the placement call lists -/

theorem verticalRebarCalls_length (b : BoundingBox) (v : Nat) :
    (verticalRebarCalls b v).length = v := by
  rw [verticalRebarCalls, List.length_map, List.length_range]

theorem horizontalRebarCalls_length (b : BoundingBox) (h : Nat) :
    (horizontalRebarCalls b h).length = h := by
  rw [horizontalRebarCalls, List.length_map, List.length_range]

theorem verticalRebarCalls_getElem (b : BoundingBox) (v i : Nat) (hi : i < v) :
    (verticalRebarCalls b v)[i]?
      = some { normal := XYZ.BasisX,
               curve := Line.CreateBound
                 ⟨b.Min.X + SNI_COVER + (i : ℚ) * v_spacing b v,
                  b.Min.Y + SNI_COVER, b.Min.Z + SNI_COVER⟩
                 ⟨b.Min.X + SNI_COVER + (i : ℚ) * v_spacing b v,
                  b.Min.Y + SNI_COVER, b.Max.Z - SNI_COVER⟩ } := by
  have hlen : i < (verticalRebarCalls b v).length := by
    rw [verticalRebarCalls_length]; omega
  rw [List.getElem?_eq_getElem hlen]
  simp only [verticalRebarCalls, List.getElem_map, List.getElem_range]

theorem horizontalRebarCalls_getElem (b : BoundingBox) (h j : Nat) (hj : j < h) :
    (horizontalRebarCalls b h)[j]?
      = some { normal := XYZ.BasisZ,
               curve := Line.CreateBound
                 ⟨b.Min.X + SNI_COVER, b.Min.Y + SNI_COVER,
                  b.Min.Z + SNI_COVER + (j : ℚ) * h_spacing b h⟩
                 ⟨b.Max.X - SNI_COVER, b.Min.Y + SNI_COVER,
                  b.Min.Z + SNI_COVER + (j : ℚ) * h_spacing b h⟩ } := by
  have hlen : j < (horizontalRebarCalls b h).length := by
    rw [horizontalRebarCalls_length]; omega
  rw [List.getElem?_eq_getElem hlen]
  simp only [horizontalRebarCalls, List.getElem_map, List.getElem_range]

/-! ### Claims about the Manual Rebar Placement script -/

/-- C2: with `verticalCount = 1` exactly one vertical bar is placed, at
`x = minX + cover`; with `verticalCount = n > 1` the `n` bars' X
coordinates are evenly spaced between `minX + cover` and `maxX - cover`
inclusive, bar `i` at `x = minX + cover + i * (width - 2*cover) / (n - 1)`;
in particular the bounding box with X ∈ [0, 1], Z ∈ [0, 2] and
`verticalCount = 3` yields X positions `[0.04, 0.5, 0.96]`. -/
theorem claim_C2 :
    (∀ b : BoundingBox,
      (verticalRebarCalls b 1).map (fun c => c.curve.p0.X)
        = [b.Min.X + SNI_COVER]) ∧
    (∀ (b : BoundingBox) (n : Nat), 1 < n → ∀ i, i < n →
      ((verticalRebarCalls b n).map (fun c => c.curve.p0.X))[i]?
        = some (b.Min.X + SNI_COVER
            + (i : ℚ) * ((b.Max.X - b.Min.X - 2 * SNI_COVER) / ((n : ℚ) - 1)))) ∧
    (verticalRebarCalls ⟨⟨0, 0, 0⟩, ⟨1, 1, 2⟩⟩ 3).map (fun c => c.curve.p0.X)
      = [0.04, 0.5, 0.96] := by
  refine ⟨?_, ?_, ?_⟩
  · intro b
    have h1 : verticalRebarCalls b 1
        = [{ normal := XYZ.BasisX,
             curve := Line.CreateBound
               ⟨b.Min.X + SNI_COVER + ((0 : Nat) : ℚ) * v_spacing b 1,
                b.Min.Y + SNI_COVER, b.Min.Z + SNI_COVER⟩
               ⟨b.Min.X + SNI_COVER + ((0 : Nat) : ℚ) * v_spacing b 1,
                b.Min.Y + SNI_COVER, b.Max.Z - SNI_COVER⟩ }] := rfl
    rw [h1, List.map_singleton]
    norm_num [Line.CreateBound]
  · intro b n hn i hi
    have hmax : max 1 (n - 1) = n - 1 := by omega
    have hcast : ((n - 1 : Nat) : ℚ) = (n : ℚ) - 1 := by
      push_cast [Nat.cast_sub (by omega : 1 ≤ n)]
      ring
    rw [List.getElem?_map, verticalRebarCalls_getElem b n i hi, Option.map_some']
    simp only [Line.CreateBound, v_spacing, if_pos hn, hmax, hcast]
  · norm_num [verticalRebarCalls, v_spacing, SNI_COVER, List.range_succ,
      Line.CreateBound]

theorem claim_C2_witness :
    ((verticalRebarCalls ⟨⟨0, 0, 0⟩, ⟨1, 1, 2⟩⟩ 3).map (fun c => c.curve.p0.X))[2]?
      = some ((0 : ℚ) + SNI_COVER + ((2 : Nat) : ℚ)
          * (((1 : ℚ) - 0 - 2 * SNI_COVER) / ((3 : ℚ) - 1))) :=
  claim_C2.2.1 ⟨⟨0, 0, 0⟩, ⟨1, 1, 2⟩⟩ 3 (by norm_num) 2 (by norm_num)

/-- C9: for every element whose placement succeeds, exactly
`verticalCount + horizontalCount` create-rebar calls are committed for that
element within its mutation scope: `verticalCount` bars running along Z
(from `minZ + cover` to `maxZ - cover`) indexed along X with norm direction
`BasisX`, followed by `horizontalCount` bars running along X (from
`minX + cover` to `maxX - cover`) indexed along Z with norm direction
`BasisZ`. -/
theorem claim_C9 : ∀ (b : BoundingBox) (raises : Bool)
    (vertical horizontal : Nat),
    (place_rebars (some b) raises vertical horizontal).2 = true →
    (place_rebars (some b) raises vertical horizontal).1.length
        = vertical + horizontal ∧
    (∀ i, i < vertical →
      (place_rebars (some b) raises vertical horizontal).1[i]?
        = some { normal := XYZ.BasisX,
                 curve := Line.CreateBound
                   ⟨b.Min.X + SNI_COVER + (i : ℚ) * v_spacing b vertical,
                    b.Min.Y + SNI_COVER, b.Min.Z + SNI_COVER⟩
                   ⟨b.Min.X + SNI_COVER + (i : ℚ) * v_spacing b vertical,
                    b.Min.Y + SNI_COVER, b.Max.Z - SNI_COVER⟩ }) ∧
    (∀ j, j < horizontal →
      (place_rebars (some b) raises vertical horizontal).1[vertical + j]?
        = some { normal := XYZ.BasisZ,
                 curve := Line.CreateBound
                   ⟨b.Min.X + SNI_COVER, b.Min.Y + SNI_COVER,
                    b.Min.Z + SNI_COVER + (j : ℚ) * h_spacing b horizontal⟩
                   ⟨b.Max.X - SNI_COVER, b.Min.Y + SNI_COVER,
                    b.Min.Z + SNI_COVER + (j : ℚ) * h_spacing b horizontal⟩ }) := by
  intro b raises v h hsucc
  cases raises with
  | true => simp [place_rebars] at hsucc
  | false =>
    have hplace : (place_rebars (some b) false v h).1
        = verticalRebarCalls b v ++ horizontalRebarCalls b h := rfl
    have hlen : (verticalRebarCalls b v).length = v :=
      verticalRebarCalls_length b v
    refine ⟨?_, ?_, ?_⟩
    · rw [hplace, List.length_append, verticalRebarCalls_length,
        horizontalRebarCalls_length]
    · intro i hi
      rw [hplace, List.getElem?_append_left (by omega),
        verticalRebarCalls_getElem b v i hi]
    · intro j hj
      rw [hplace, List.getElem?_append_right (by omega), hlen]
      have hidx : v + j - v = j := by omega
      rw [hidx, horizontalRebarCalls_getElem b h j hj]

theorem claim_C9_witness :
    (place_rebars (some ⟨⟨0, 0, 0⟩, ⟨1, 1, 2⟩⟩) false 2 1).1.length = 2 + 1 :=
  (claim_C9 ⟨⟨0, 0, 0⟩, ⟨1, 1, 2⟩⟩ false 2 1 rfl).1

/-- C10: every rebar line the placement procedure creates for an element —
vertical and horizontal alike — lies in the single plane
`y = minY + cover` of that element's bounding box: both endpoints of every
created bar share the Y coordinate `minY + cover`, so the bars are not
distributed through the bounding box's Y extent. -/
theorem claim_C10 : ∀ (b : BoundingBox) (raises : Bool)
    (vertical horizontal : Nat) (c : RebarCall),
    c ∈ (place_rebars (some b) raises vertical horizontal).1 →
    c.curve.p0.Y = b.Min.Y + SNI_COVER ∧ c.curve.p1.Y = b.Min.Y + SNI_COVER := by
  intro b raises v h c hc
  cases raises with
  | true => simp [place_rebars] at hc
  | false =>
    have hplace : (place_rebars (some b) false v h).1
        = verticalRebarCalls b v ++ horizontalRebarCalls b h := rfl
    rw [hplace, List.mem_append] at hc
    rcases hc with hc | hc
    · simp [verticalRebarCalls, List.mem_map] at hc
      obtain ⟨i, hi, rfl⟩ := hc
      exact ⟨rfl, rfl⟩
    · simp [horizontalRebarCalls, List.mem_map] at hc
      obtain ⟨i, hi, rfl⟩ := hc
      exact ⟨rfl, rfl⟩

theorem claim_C10_witness :
    ({ normal := XYZ.BasisX,
       curve := Line.CreateBound
         ⟨(0 : ℚ) + SNI_COVER + ((0 : Nat) : ℚ) * v_spacing ⟨⟨0, 0, 0⟩, ⟨1, 1, 2⟩⟩ 1,
          (0 : ℚ) + SNI_COVER, (0 : ℚ) + SNI_COVER⟩
         ⟨(0 : ℚ) + SNI_COVER + ((0 : Nat) : ℚ) * v_spacing ⟨⟨0, 0, 0⟩, ⟨1, 1, 2⟩⟩ 1,
          (0 : ℚ) + SNI_COVER, (2 : ℚ) - SNI_COVER⟩ } : RebarCall).curve.p0.Y
      = (⟨⟨0, 0, 0⟩, ⟨1, 1, 2⟩⟩ : BoundingBox).Min.Y + SNI_COVER ∧
    ({ normal := XYZ.BasisX,
       curve := Line.CreateBound
         ⟨(0 : ℚ) + SNI_COVER + ((0 : Nat) : ℚ) * v_spacing ⟨⟨0, 0, 0⟩, ⟨1, 1, 2⟩⟩ 1,
          (0 : ℚ) + SNI_COVER, (0 : ℚ) + SNI_COVER⟩
         ⟨(0 : ℚ) + SNI_COVER + ((0 : Nat) : ℚ) * v_spacing ⟨⟨0, 0, 0⟩, ⟨1, 1, 2⟩⟩ 1,
          (0 : ℚ) + SNI_COVER, (2 : ℚ) - SNI_COVER⟩ } : RebarCall).curve.p1.Y
      = (⟨⟨0, 0, 0⟩, ⟨1, 1, 2⟩⟩ : BoundingBox).Min.Y + SNI_COVER :=
  claim_C10 ⟨⟨0, 0, 0⟩, ⟨1, 1, 2⟩⟩ false 1 0 _ (List.mem_singleton.mpr rfl)

/-- C4: a count string parsing as one integer V yields counts
`(max(1,V), max(1,V))` (H defaults to V); a string parsing as two integers
V H yields `(max(1,V), max(1,H))`; both counts are floored at 1.  A
non-empty input fails to parse — and aborts with the format-error message —
exactly when it has no token at all (whitespace only, so `parts[0]` raises
IndexError), its first token is not an integer, or it has a second token
that is not an integer (`int(parts[1])` raises); tokens beyond the second
are ignored.  For every input that fails to parse — e.g. `"abc"` — the
command aborts with the format error before any mutation scope is
opened. -/
theorem claim_C4 :
    (∀ (s p : String) (V : Int),
        pySplit (pyStrip s) = [p] → pyInt p = some V →
        get_rebar_counts s = .ok ((max 1 V).toNat, (max 1 V).toNat)) ∧
    (∀ (s p q : String) (rest : List String) (V H : Int),
        pySplit (pyStrip s) = p :: q :: rest → pyInt p = some V →
        pyInt q = some H →
        get_rebar_counts s = .ok ((max 1 V).toNat, (max 1 H).toNat)) ∧
    (∀ s : String, s ≠ "" →
      (get_rebar_counts s = .error .badFormat ↔
        (pySplit (pyStrip s) = [] ∨
          (∃ p rest, pySplit (pyStrip s) = p :: rest ∧ pyInt p = none) ∨
          (∃ p q rest, pySplit (pyStrip s) = p :: q :: rest ∧
            pyInt q = none)))) ∧
    (∀ (s : String) (elems : List (Option BoundingBox × Bool)),
        get_rebar_counts s = .error .badFormat →
        runRebarCommand elems s = .error .badFormat ∧
        scopesOpened elems (runRebarCommand elems s) = 0) ∧
    get_rebar_counts "abc" = .error .badFormat := by
  have hempty : ∀ s : String, s = "" → pySplit (pyStrip s) = [] := by
    intro s hs
    subst hs
    rfl
  refine ⟨?_, ?_, ?_, ?_, rfl⟩
  · intro s p V hsplit hint
    have hs : s ≠ "" := by
      intro h
      rw [hempty s h] at hsplit
      exact List.noConfusion hsplit
    simp [get_rebar_counts, hs, hsplit, hint]
  · intro s p q rest V H hsplit hp hq
    have hs : s ≠ "" := by
      intro h
      rw [hempty s h] at hsplit
      exact List.noConfusion hsplit
    simp [get_rebar_counts, hs, hsplit, hp, hq]
  · intro s hs
    rcases hsplit : pySplit (pyStrip s) with _ | ⟨p, _ | ⟨q, rest2⟩⟩
    · simp [get_rebar_counts, hs, hsplit]
    · rcases hp : pyInt p with _ | V
      · simp [get_rebar_counts, hs, hsplit, hp]
      · simp [get_rebar_counts, hs, hsplit, hp]
    · rcases hp : pyInt p with _ | V
      · simp [get_rebar_counts, hs, hsplit, hp]
      · rcases hq : pyInt q with _ | H
        · simp only [get_rebar_counts, hs, hsplit, hp, hq, if_neg,
            reduceCtorEq, not_false_eq_true, true_iff, List.cons.injEq]
          exact Or.inr (Or.inr ⟨p, q, rest2, ⟨rfl, rfl, rfl⟩, hq⟩)
        · simp [get_rebar_counts, hs, hsplit, hp, hq]
  · intro s elems herr
    refine ⟨?_, ?_⟩
    · simp [runRebarCommand, herr]
    · simp [scopesOpened, runRebarCommand, herr]

theorem claim_C4_witness :
    get_rebar_counts "3" = .ok ((max 1 (3 : Int)).toNat, (max 1 (3 : Int)).toNat) ∧
    get_rebar_counts "3 x" = .error .badFormat ∧
    runRebarCommand [] "3 x" = .error .badFormat ∧
    scopesOpened [] (runRebarCommand [] "3 x") = 0 ∧
    get_rebar_counts "  " = .error .badFormat :=
  ⟨claim_C4.1 "3" "3" 3 rfl rfl,
   (claim_C4.2.2.1 "3 x" (by decide)).mpr
     (Or.inr (Or.inr ⟨"3", "x", [], rfl, rfl⟩)),
   (claim_C4.2.2.2.1 "3 x" [] rfl).1,
   (claim_C4.2.2.2.1 "3 x" [] rfl).2,
   (claim_C4.2.2.1 "  " (by decide)).mpr (Or.inl rfl)⟩

/-- C5: an element with no bounding box is skipped with zero bars created
and counts as a failure; an exception while processing an element is
caught and counted as a failure for that element only (its transaction is
rolled back, zero committed bars); no exception escapes — every element in
the list is processed and processing continues with the remaining elements;
the final summary reports the number of successful elements out of the
total number of filtered elements. -/
theorem claim_C5 : ∀ (elems : List (Option BoundingBox × Bool))
    (vertical horizontal : Nat),
    (∀ raises, place_rebars none raises vertical horizontal = ([], false)) ∧
    (∀ b, place_rebars (some b) true vertical horizontal = ([], false)) ∧
    (run_placement elems vertical horizontal).2.length = elems.length ∧
    (run_placement elems vertical horizontal).1
      = ((run_placement elems vertical horizontal).2.filter
          (fun r => r.2)).length ∧
    (∀ e rest, (run_placement (e :: rest) vertical horizontal).2
        = place_rebars e.1 e.2 vertical horizontal
            :: (run_placement rest vertical horizontal).2) := by
  intro elems v h
  refine ⟨fun raises => rfl, fun b => rfl, ?_, rfl, fun e rest => rfl⟩
  simp [run_placement]

/-- Bridge between the source filter predicate and the element shapes named
by the spec. -/
theorem canHostRebar_iff (e : Element) :
    canHostRebar e = true ↔
      ((∃ st, e = Element.familyInstance st)
        ∨ e = Element.wall WallKind.Basic ∨ e = Element.floor) := by
  cases e <;> simp [canHostRebar]

/-- C6 counterexample: the source filter keeps a *non-structural* family
instance (the `isinstance` check never reads the structural flag), while
the claimed filter — "exactly those ... that are a structural family
instance, a wall, or a floor" — would reject it. -/
theorem claim_C6_cex :
    get_valid_elements [some (Element.familyInstance false)]
        = some [Element.familyInstance false] ∧
    specCanHostRebar (Element.familyInstance false) = false := by
  exact ⟨rfl, rfl⟩

/-- C6 as amended: the element filter of the rebar procedure keeps exactly those
selected elements that are a family instance (structural or not), a wall of
the basic kind, or a floor; if no element survives the filter the command
aborts with a user message before any mutation. -/
theorem claim_C6 : ∀ (selection : List (Option Element)),
    (∀ l, get_valid_elements selection = some l →
      ∀ e, e ∈ l ↔ (some e ∈ selection ∧
        ((∃ st, e = Element.familyInstance st)
          ∨ e = Element.wall WallKind.Basic ∨ e = Element.floor))) ∧
    (get_valid_elements selection = none ↔
      ∀ e, some e ∈ selection →
        ¬((∃ st, e = Element.familyInstance st)
          ∨ e = Element.wall WallKind.Basic ∨ e = Element.floor)) := by
  intro selection
  have hmem : ∀ e, e ∈ (selection.filterMap id).filter canHostRebar ↔
      (some e ∈ selection ∧
        ((∃ st, e = Element.familyInstance st)
          ∨ e = Element.wall WallKind.Basic ∨ e = Element.floor)) := by
    intro e
    rw [List.mem_filter, List.mem_filterMap, canHostRebar_iff]
    constructor
    · rintro ⟨⟨a, ha, hae⟩, hhost⟩
      simp only [id_eq] at hae
      subst hae
      exact ⟨ha, hhost⟩
    · rintro ⟨ha, hhost⟩
      exact ⟨⟨some e, ha, rfl⟩, hhost⟩
  constructor
  · intro l hl e
    have hvalid : ¬ ((selection.filterMap id).filter canHostRebar).isEmpty := by
      intro hemp
      simp [get_valid_elements, hemp] at hl
    have hl2 : ((selection.filterMap id).filter canHostRebar) = l := by
      simpa [get_valid_elements, hvalid] using hl
    rw [← hl2]
    exact hmem e
  · constructor
    · intro hnone e hsel hP
      have hemp : ((selection.filterMap id).filter canHostRebar).isEmpty := by
        by_contra hne
        simp [get_valid_elements, hne] at hnone
      rw [List.isEmpty_iff] at hemp
      have hin : e ∈ (selection.filterMap id).filter canHostRebar :=
        (hmem e).mpr ⟨hsel, hP⟩
      rw [hemp] at hin
      exact List.not_mem_nil e hin
    · intro hP
      have hemp : ((selection.filterMap id).filter canHostRebar) = [] := by
        rw [List.eq_nil_iff_forall_not_mem]
        intro e hin
        obtain ⟨hsel, hhost⟩ := (hmem e).mp hin
        exact hP e hsel hhost
      simp [get_valid_elements, hemp]

theorem claim_C6_witness :
    Element.floor ∈ [Element.floor] ↔
      (some Element.floor ∈ [some Element.other, some Element.floor] ∧
        ((∃ st, Element.floor = Element.familyInstance st)
          ∨ Element.floor = Element.wall WallKind.Basic
          ∨ Element.floor = Element.floor)) :=
  (claim_C6 [some Element.other, some Element.floor]).1 [Element.floor] rfl
    Element.floor

end LearnRevit
